import Mathlib

/-!
Verification development for the voice-notes transcript reconstruction core
(src/voice_notes/transcript.py and its caller src/voice_notes/voice_note.py).

Times are modelled as exact rationals (the source parses decimal-string
timestamps into floats and only compares/floors them; no rounding-sensitive
arithmetic occurs).  Fallible operations (Python exceptions: IndexError from
list indexing, TypeError from comparing None) are modelled with Option/Except:
a `none`/`error` result means the Python code raises.
-/

namespace VoiceNotes

/-- Model of AWSSegment (transcript.py): a diarization segment with optional
start/end times, a display speaker label (already normalized from spk_N to SN
by AWSSegment.post_init), and its ordinal index in the segment list. -/
structure AWSSegment where
  start_time : Option ℚ := none
  end_time : Option ℚ := none
  speaker_label : String := "S0"
  index : Nat := 0
deriving DecidableEq, Repr

/-- Model of AWSTranscriptItem (transcript.py): one raw recognition token.
The field content abstracts alternatives[0].content of the source. -/
structure AWSTranscriptItem where
  type : String := ""
  content : String := ""
  start_time : Option ℚ := none
  end_time : Option ℚ := none
deriving DecidableEq, Repr

/-- Model of the TranscriptItem hierarchy (transcript.py): either a TextItem
(a text run with a speaker and a segment index) or a Timestamp marker holding
a whole number of elapsed seconds (timedelta). -/
inductive TranscriptItem where
  | textItem (text : String) (speaker : String) (segment_index : Nat)
  | timestamp (delta : Int)
deriving DecidableEq, Repr

namespace TranscriptItem

/-- Model of TextItem.accepts together with the TranscriptItem.accepts base
method (which returns False, covering Timestamp).  The effective speaker and
segment index of the incoming token (derived in the source from token.segment)
are passed explicitly. -/
def accepts : TranscriptItem → String → Nat → Bool
  | textItem _ sp si, speaker, segIdx => sp == speaker && si == segIdx
  | timestamp _, _, _ => false

/-- True exactly on TextItem, mirroring isinstance(item, TextItem). -/
def isText : TranscriptItem → Bool
  | textItem _ _ _ => true
  | timestamp _ => false

/-- Speaker of a TextItem; dummy on a Timestamp (only used after isText). -/
def speakerOf : TranscriptItem → String
  | textItem _ sp _ => sp
  | timestamp _ => ""

/-- Model of TextItem.iadd for an AWSTranscriptItem argument: a word token is
appended after one space, a punctuation token with no space (transcript.py
lines 88-98).  On a Timestamp it is the identity (unreachable in the builder
because accepts is false there). -/
def mergeToken : TranscriptItem → AWSTranscriptItem → TranscriptItem
  | textItem txt sp si, tok =>
      textItem (txt ++ (if tok.type ≠ "punctuation" then " " else "") ++ tok.content) sp si
  | timestamp d, _ => timestamp d

end TranscriptItem

/-- Two-digit rendering of a Nat below 100, as Python zero-pads minutes and
seconds in str(timedelta). -/
def twoDigits (n : Nat) : String :=
  if n < 10 then "0" ++ toString n else toString n

/-- Model of Python str(datetime.timedelta(seconds=n)) for nonnegative n
(the builder only creates nonnegative deltas, flooring a start time). -/
def timedeltaStr (delta : Int) : String :=
  let n := delta.toNat
  let days := n / 86400
  let rem := n % 86400
  let core := toString (rem / 3600) ++ ":" ++ twoDigits (rem % 3600 / 60) ++ ":" ++ twoDigits (rem % 60)
  if days = 0 then core
  else if days = 1 then toString days ++ " day, " ++ core
  else toString days ++ " days, " ++ core

/-- Model of Timestamp.from_start_time: floor the start time to whole
seconds (int(math.floor(float(start_time)))). -/
def timestampFromStartTime (start_time : ℚ) : TranscriptItem :=
  TranscriptItem.timestamp ⌊start_time⌋

/-- Model of the str() rendering of a TranscriptItem: a TextItem renders as
its text, a Timestamp as the bracketed timedelta string. -/
def TranscriptItem.toStr : TranscriptItem → String
  | textItem txt _ _ => txt
  | timestamp d => "[" ++ timedeltaStr d ++ "]"

/-- Concatenation of a list of strings, modelling the empty-separator
str.join used by Transcript.to_string. -/
def joinStrings : List String → String
  | [] => ""
  | s :: rest => s ++ joinStrings rest

/-- Newline-separated concatenation, modelling the newline str.join used by
Transcript.to_string. -/
def joinLines : List String → String
  | [] => ""
  | [s] => s
  | s :: rest => s ++ "\n" ++ joinLines rest

/-- Model of a Notion rich text object (notion/basics.py RichText): its
visible text plus the two used annotations. -/
structure RichText where
  text : String
  bold : Bool := false
  code : Bool := false
deriving DecidableEq, Repr

/-- RichText.plain_text. -/
def RichText.plainText (t : String) : RichText := { text := t }

/-- RichText.bold. -/
def RichText.boldText (t : String) : RichText := { text := t, bold := true }

/-- RichText.code. -/
def RichText.codeText (t : String) : RichText := { text := t, code := true }

/-- Model of TranscriptItem.to_rich_text: a TextItem becomes plain text, a
Timestamp becomes a code/monospaced rich text of its str(). -/
def TranscriptItem.toRichText (item : TranscriptItem) : RichText :=
  match item with
  | .textItem txt _ _ => RichText.plainText txt
  | .timestamp _ => RichText.codeText item.toStr

/-- Model of a Notion paragraph block (notion/basics.py Block.paragraph):
rich text content plus child blocks.  Only paragraph blocks are produced by
the transcript renderer. -/
inductive Block where
  | paragraph (text : List RichText) (children : List Block)

/-- Model of the Transcript aggregate (transcript.py).  timestamp_every and
next_timestamp are Python ints (next_timestamp only ever accumulates
timestamp_every), hence integers here; they are compared against rational
token start times by casting.  post_init sets next_timestamp to
timestamp_every; the defaults here agree with a freshly constructed
Transcript(). -/
structure Transcript where
  timestamp_every : ℤ := 60
  next_timestamp : ℤ := 60
  items : List TranscriptItem := []
  segments : List AWSSegment := []
  segment_index : Nat := 0
  n_speakers : Nat := 0
deriving DecidableEq, Repr

/-- Model of the cursor-advance loop of Transcript.iadd:
while self.current_segment.end_time < token.start_time: self.segment_index += 1.
The recursion walks the suffix of the segment list from the cursor.  A none
result models a raised exception: IndexError when the cursor runs past the
end of the list, TypeError when a reached segment has no end time. -/
def advanceAux (start : ℚ) : List AWSSegment → Nat → Option Nat
  | [], _ => none
  | seg :: rest, idx =>
    match seg.end_time with
    | none => none
    | some e => if e < start then advanceAux start rest (idx + 1) else some idx

/-- Cursor advance starting from index idx into the full segment list. -/
def advanceCursor (segments : List AWSSegment) (start : ℚ) (idx : Nat) : Option Nat :=
  advanceAux start (segments.drop idx) idx

/-- Fresh TextItem seeded from a token, modelling
TextItem(token.content, speaker=token.speaker, segment_index=token.segment.index). -/
def newRun (token : AWSTranscriptItem) (speaker : String) (segIdx : Nat) : TranscriptItem :=
  TranscriptItem.textItem token.content speaker segIdx

/-- Model of the merge-or-append step of Transcript.iadd (lines 222-231):
if the item list is nonempty and its last item accepts the token, merge the
token into that item in place; otherwise append a fresh TextItem. -/
def appendTokenItems (items : List TranscriptItem) (token : AWSTranscriptItem)
    (speaker : String) (segIdx : Nat) : List TranscriptItem :=
  match items.getLast? with
  | some last =>
    if last.accepts speaker segIdx then items.dropLast ++ [last.mergeToken token]
    else items ++ [newRun token speaker segIdx]
  | none => items ++ [newRun token speaker segIdx]

/-- Cursor step of Transcript.iadd: punctuation tokens leave the cursor
where it is; any other token drives the while loop.  A non-punctuation token
with no start time makes the loop condition compare a float against None, a
TypeError, modelled as none. -/
def tokenCursor (t : Transcript) (token : AWSTranscriptItem) : Option Nat :=
  if token.type = "punctuation" then some t.segment_index
  else
    match token.start_time with
    | none => none
    | some s => advanceCursor t.segments s t.segment_index

/-- Timestamp step of Transcript.iadd (lines 218-220): when the token has a
truthy start time strictly past the threshold, append a Timestamp floored to
whole seconds and bump the threshold by one interval.  Returns the item list
and threshold to use for the rest of the append. -/
def timestampStep (t : Transcript) (token : AWSTranscriptItem) : List TranscriptItem × ℤ :=
  match token.start_time with
  | some s =>
    if s ≠ 0 ∧ (t.next_timestamp : ℚ) < s then
      (t.items ++ [timestampFromStartTime s], t.next_timestamp + t.timestamp_every)
    else (t.items, t.next_timestamp)
  | none => (t.items, t.next_timestamp)

/-- Model of Transcript.iadd (transcript.py lines 207-233).  A none result
models a raised exception; the source raises out of the append and produces
no updated transcript.  Steps, in source order: advance the cursor for
non-punctuation tokens; fetch the current segment (IndexError when the
cursor is out of range); insert a Timestamp and bump the threshold when the
token has a truthy start time past the threshold; then merge or append the
token text using the effective speaker and segment index taken from the
attributed segment. -/
def Transcript.iadd (t : Transcript) (token : AWSTranscriptItem) : Option Transcript := do
  let idx ← tokenCursor t token
  let seg ← t.segments[idx]?
  let items2 := appendTokenItems (timestampStep t token).1 token seg.speaker_label seg.index
  some { t with items := items2, segment_index := idx, next_timestamp := (timestampStep t token).2 }

/-- Folding a whole token stream into a transcript, modelling the loop
for item in aws_json.items: t += item (with any raised exception aborting
the build). -/
def Transcript.addAll (t : Transcript) (tokens : List AWSTranscriptItem) : Option Transcript :=
  tokens.foldlM Transcript.iadd t

/-- One step of the items_by_speaker loop.  State: groups flushed so far, the
currently open group, and the current speaker (None until the first TextItem
is seen). -/
def ibsStep : List (List TranscriptItem) × List TranscriptItem × Option String →
    TranscriptItem → List (List TranscriptItem) × List TranscriptItem × Option String
  | (bys, cur, currentSpeaker), item =>
    match item with
    | .textItem txt sp si =>
      let cs := if currentSpeaker = none then some sp else currentSpeaker
      if cs ≠ some sp then (bys ++ [cur], [TranscriptItem.textItem txt sp si], some sp)
      else (bys, cur ++ [TranscriptItem.textItem txt sp si], cs)
    | .timestamp d => (bys, cur ++ [TranscriptItem.timestamp d], currentSpeaker)

/-- Model of Transcript.items_by_speaker (transcript.py lines 150-172): walk
the item list once, flushing the open group whenever a TextItem changes
speaker; the final group is always flushed, even when empty. -/
def Transcript.items_by_speaker (t : Transcript) : List (List TranscriptItem) :=
  let (bys, cur, _) := t.items.foldl ibsStep ([], [], none)
  bys ++ [cur]

/-- Speaker of the first TextItem of a group, modelling
[g for g in group if isinstance(g, TextItem)][0].speaker; none models the
IndexError raised when the group holds no TextItem. -/
def firstSpeaker (group : List TranscriptItem) : Option String :=
  ((group.filter TranscriptItem.isText).head?).map TranscriptItem.speakerOf

/-- Line rendered for one speaker group by Transcript.to_string: the group
speaker, a colon and space, then the concatenated str() of each item. -/
def lineOf (group : List TranscriptItem) : Option String := do
  let sp ← firstSpeaker group
  pure (sp ++ ": " ++ joinStrings (group.map TranscriptItem.toStr))

/-- Model of Transcript.to_string (transcript.py lines 174-183). -/
def Transcript.to_string (t : Transcript) : Option String := do
  let results ← t.items_by_speaker.mapM lineOf
  pure (joinLines results)

/-- Rich text list for one speaker group, modelling the inner loop of
Transcript.to_block: bold speaker label, ": ", then each item followed by a
single plain space. -/
def groupRichTexts (sp : String) (group : List TranscriptItem) : List RichText :=
  [RichText.boldText sp, RichText.plainText ": "] ++
    (group.map fun g => [g.toRichText, RichText.plainText " "]).flatten

/-- Paragraph block rendered for one speaker group by Transcript.to_block. -/
def blockOf (group : List TranscriptItem) : Option Block := do
  let sp ← firstSpeaker group
  pure (Block.paragraph (groupRichTexts sp group) [])

/-- Model of Transcript.to_block (transcript.py lines 185-196): one paragraph
child per speaker group, all under a titled top-level paragraph. -/
def Transcript.to_block (t : Transcript) (block_title : RichText) : Option Block := do
  let children ← t.items_by_speaker.mapM blockOf
  pure (Block.paragraph [block_title] children)

/-- Model of the raw recognition JSON payload consumed by
Transcript.from_aws_transcribe_json: speaker count, ordered raw segments and
ordered token items. -/
structure AWSJson where
  speakers : Nat
  segments : List AWSSegment
  items : List AWSTranscriptItem
deriving DecidableEq, Repr

/-- Replacement loop over character lists, modelling Python str.replace:
scan left to right, replacing each non-overlapping occurrence of the
pattern.  The fuel argument starts at the list length, an upper bound on the
number of steps, so it never runs out before the list is consumed. -/
def replaceCharsAux (pat rep : List Char) : Nat → List Char → List Char
  | 0, l => l
  | _ + 1, [] => []
  | fuel + 1, c :: rest =>
    if pat ≠ [] ∧ (c :: rest).take pat.length = pat then
      rep ++ replaceCharsAux pat rep fuel ((c :: rest).drop pat.length)
    else c :: replaceCharsAux pat rep fuel rest

/-- Replacement of every occurrence of a pattern, modelling str.replace. -/
def replaceChars (pat rep l : List Char) : List Char :=
  replaceCharsAux pat rep l.length l

/-- Normalization applied by AWSSegment.post_init: the label has every
occurrence of spk_ replaced by S, so spk_N becomes SN. -/
def normalizeSpeaker (s : String) : String :=
  String.mk (replaceChars "spk_".data "S".data s.data)

/-- Model of Transcript.from_aws_transcribe_json (transcript.py lines
130-148): build a fresh transcript, install the speaker count and the
enumerated, label-normalized segments, then fold in every token. -/
def Transcript.from_aws_transcribe_json (j : AWSJson) : Option Transcript :=
  let t0 : Transcript :=
    { n_speakers := j.speakers
      segments := j.segments.enum.map fun p =>
        { p.2 with index := p.1, speaker_label := normalizeSpeaker p.2.speaker_label }
      segment_index := 0 }
  t0.addAll j.items

/-- Visible characters of a string after space normalization: the character
list with spaces and newlines removed.  Used to compare the plain-string and
block renderings of a transcript modulo spacing. -/
def visibleChars (s : String) : List Char :=
  s.data.filter fun c => !(c == ' ' || c == '\n')

mutual

/-- Visible leaf text of a block tree, in order: the text of each rich text
node of the paragraph, then the leaf text of its children. -/
def Block.leafText : Block → String
  | .paragraph text children => joinStrings (text.map RichText.text) ++ Block.leafTextOfList children

/-- Visible leaf text of a list of blocks, in order. -/
def Block.leafTextOfList : List Block → String
  | [] => ""
  | b :: bs => Block.leafText b ++ Block.leafTextOfList bs

end

/-- Children of a paragraph block. -/
def Block.childrenOf : Block → List Block
  | .paragraph _ cs => cs

/-- Rich text content of a paragraph block. -/
def Block.textOf : Block → List RichText
  | .paragraph text _ => text

/-- Errors surfaced by the checked transcript pipeline of voice_note.py:
the distinguished NoSpeakersException, or an ordinary indexing failure from
the builder or renderer. -/
inductive TranscriptError where
  | noSpeakers
  | indexError
deriving DecidableEq, Repr

/-- Modelled from the spec: FormattingSettings is imported by voice_note.py
from voice_notes.transcript but its definition is missing from the src copy
of transcript.py.  Per the spec it carries the formatting mode; the
break_speakers field is true by default and false selects the
do-not-break-on-speaker-change mode. -/
structure FormattingSettings where
  break_speakers : Bool := true
deriving DecidableEq, Repr

/-- Modelled from the spec: speaker grouping under a FormattingSettings.
With break_speakers false the entire transcript is treated as one
undifferentiated group; with the default it is the ordinary
items_by_speaker grouping. -/
def itemsBySpeakerWith (settings : FormattingSettings) (t : Transcript) :
    List (List TranscriptItem) :=
  if settings.break_speakers then t.items_by_speaker else [t.items]

/-- Transcript.to_block generalized over a FormattingSettings, rendering the
groups chosen by the settings (the default settings give Transcript.to_block
exactly). -/
def Transcript.to_block_with (settings : FormattingSettings) (t : Transcript)
    (block_title : RichText) : Option Block := do
  let children ← (itemsBySpeakerWith settings t).mapM blockOf
  pure (Block.paragraph [block_title] children)

/-- Modelled from the spec: the settings-aware checked builder imported by
voice_note.py (a NoSpeakersException-raising version of
Transcript.from_aws_transcribe_json, missing from the src copy of
transcript.py).  Zero detected speakers signals the distinguished
NoSpeakersException before any segment indexing; any ordinary build failure
surfaces as an index error.  It returns the transcript together with the
settings that will drive its rendering. -/
def fromAwsCheckedJson (j : AWSJson) (settings : FormattingSettings) :
    Except TranscriptError (Transcript × FormattingSettings) :=
  if j.speakers = 0 then .error .noSpeakers
  else
    match Transcript.from_aws_transcribe_json j with
    | some t => .ok (t, settings)
    | none => .error .indexError

instance exceptDecEq {ε α : Type} [DecidableEq ε] [DecidableEq α] : DecidableEq (Except ε α)
  | .error e, .error f =>
    if h : e = f then isTrue (by rw [h]) else isFalse (by intro hc; cases hc; exact h rfl)
  | .error _, .ok _ => isFalse (by intro h; cases h)
  | .ok _, .error _ => isFalse (by intro h; cases h)
  | .ok a, .ok b =>
    if h : a = b then isTrue (by rw [h]) else isFalse (by intro hc; cases hc; exact h rfl)

/-- Lift a fallible rendering into the checked pipeline: a raised IndexError
propagates as an error. -/
def orIndexError : Option Block → Except TranscriptError Block
  | some b => .ok b
  | none => .error .indexError

/-- Model of VoiceNote.to_block (voice_note.py lines 170-197), restricted to
the transcript content (the S3-link child is out of scope): build with the
default settings; when the speaker grouping has more than 95 groups, rebuild
from the raw recognition JSON with break_speakers disabled; then render the
chosen transcript under its settings. -/
def voiceNoteToBlock (raw : AWSJson) (block_title : RichText) :
    Except TranscriptError Block :=
  match fromAwsCheckedJson raw {} with
  | .error e => .error e
  | .ok (t, s1) =>
    match (if (itemsBySpeakerWith s1 t).length > 95 then
        fromAwsCheckedJson raw { break_speakers := false }
      else .ok (t, s1)) with
    | .error e => .error e
    | .ok (t2, s2) => orIndexError (t2.to_block_with s2 block_title)

/-- Model of the ETL stages of VoiceNoteStatus (voice_note.py). -/
inductive VoiceNoteStatus where
  | Ingress
  | Local
  | S3
  | Transcribed
  | Notion
  | Evicted
deriving DecidableEq, Repr

/-- Model of the status outcome of VoiceNote.add_to_notion (voice_note.py
lines 199-219) on a note in the Transcribed stage: a NoSpeakersException
marks the note Evicted with nothing appended to the page; success appends
the block and bumps the status to Notion; any other exception propagates
(none).  The Bool records whether a block was appended. -/
def addToNotionOutcome (raw : AWSJson) (block_title : RichText) :
    Option (VoiceNoteStatus × Bool) :=
  match voiceNoteToBlock raw block_title with
  | .ok _ => some (.Notion, true)
  | .error .noSpeakers => some (.Evicted, false)
  | .error .indexError => none

/-! Concrete inputs used by witnesses. -/

/-- One word token at a given start time. -/
def wordTok (s : ℚ) (c : String) : AWSTranscriptItem :=
  { type := "pronunciation", content := c, start_time := some s, end_time := some (s + 1) }

/-- One punctuation token (no timing, as AWS Transcribe emits them). -/
def punctTok (c : String) : AWSTranscriptItem :=
  { type := "punctuation", content := c }

/-- Fresh transcript over a single segment covering zero to one hundred
seconds. -/
def tScene : Transcript :=
  { segments := [{ start_time := some 0, end_time := some 100 }] }

/-- Result of one append of a word token at ten seconds to tScene. -/
def tSceneOne : Transcript :=
  { items := [.textItem "a" "S0" 0]
    segments := [{ start_time := some 0, end_time := some 100 }] }

/-- Token stream of the spec timestamp example: word tokens at ten, thirty,
sixty-five and seventy seconds. -/
def tokensScene : List AWSTranscriptItem :=
  [wordTok 10 "a", wordTok 30 "b", wordTok 65 "c", wordTok 70 "d"]

/-- Result of folding tokensScene into tScene. -/
def tSceneResult : Transcript :=
  { next_timestamp := 120
    items := [.textItem "a b" "S0" 0, .timestamp 65, .textItem "c d" "S0" 0]
    segments := [{ start_time := some 0, end_time := some 100 }] }

/-- State of the spec example build just before the token at sixty-five
seconds. -/
def tMid65 : Transcript :=
  { items := [.textItem "a b" "S0" 0]
    segments := [{ start_time := some 0, end_time := some 100 }] }

/-- State of the spec example build just after the token at sixty-five
seconds: the marker fired and precedes the new run. -/
def tMid65Result : Transcript :=
  { next_timestamp := 120
    items := [.textItem "a b" "S0" 0, .timestamp 65, .textItem "c" "S0" 0]
    segments := [{ start_time := some 0, end_time := some 100 }] }

/-- Two-segment transcript used to exercise cursor advancement. -/
def tTwoSeg : Transcript :=
  { segments :=
      [{ start_time := some 0, end_time := some 5, speaker_label := "S0", index := 0 },
       { start_time := some 5, end_time := some 100, speaker_label := "S1", index := 1 }] }

/-- Result of one append of a word token at ten seconds to tTwoSeg. -/
def tTwoSegResult : Transcript :=
  { items := [.textItem "w" "S1" 1]
    segments :=
      [{ start_time := some 0, end_time := some 5, speaker_label := "S0", index := 0 },
       { start_time := some 5, end_time := some 100, speaker_label := "S1", index := 1 }]
    segment_index := 1 }

/-- Raw recognition JSON with alternating speakers: ninety-six one-second
segments and one word token inside each, so the default grouping has
ninety-six speaker groups. -/
def bigJson : AWSJson :=
  { speakers := 2
    segments := (List.range 96).map fun i =>
      { start_time := some ((2 * i : ℕ) : ℚ), end_time := some ((2 * i + 2 : ℕ) : ℚ)
        speaker_label := if i % 2 = 0 then "spk_0" else "spk_1", index := 0 }
    items := (List.range 96).map fun i =>
      { type := "pronunciation", content := "w"
        start_time := some ((2 * i + 1 : ℕ) : ℚ), end_time := some ((2 * i + 2 : ℕ) : ℚ) } }

/-- Normalized, enumerated segments of bigJson, as installed by
Transcript.from_aws_transcribe_json. -/
def bigSegmentsNorm : List AWSSegment :=
  bigJson.segments.enum.map fun p =>
    { p.2 with index := p.1, speaker_label := normalizeSpeaker p.2.speaker_label }

/-- Fresh transcript over the bigJson segments. -/
def bigT0 : Transcript := { n_speakers := 2, segments := bigSegmentsNorm }

/-- Text run produced by the i-th bigJson token. -/
def runItem (i : Nat) : TranscriptItem :=
  .textItem "w" (if i % 2 = 0 then "S0" else "S1") i

/-- Item list of the bigJson build after its first n tokens: one run per
token, with timestamp markers fired by the tokens at sixty-one, one hundred
twenty-one and one hundred eighty-one seconds. -/
def bigItemsUpTo (n : Nat) : List TranscriptItem :=
  ((List.range n).map fun i =>
    (if i = 30 then [TranscriptItem.timestamp 61]
     else if i = 60 then [TranscriptItem.timestamp 121]
     else if i = 90 then [TranscriptItem.timestamp 181]
     else []) ++ [runItem i]).flatten

/-- State of the bigJson build after its first n tokens (n positive), with
the given timestamp threshold. -/
def bigTAfter (n : Nat) (next : ℤ) : Transcript :=
  { n_speakers := 2, segments := bigSegmentsNorm, segment_index := n - 1
    next_timestamp := next, items := bigItemsUpTo n }

/-! Helper lemmas about the builder. -/

lemma iadd_eq_some_iff {t : Transcript} {tok : AWSTranscriptItem} {t' : Transcript} :
    t.iadd tok = some t' ↔
      ∃ idx seg, tokenCursor t tok = some idx ∧ t.segments[idx]? = some seg ∧
        t' = { t with
                items := appendTokenItems (timestampStep t tok).1 tok seg.speaker_label seg.index
                segment_index := idx
                next_timestamp := (timestampStep t tok).2 } := by
  simp only [Transcript.iadd, bind, Option.bind_eq_some, Option.some.injEq]
  constructor
  · rintro ⟨idx, hidx, seg, hseg, h⟩
    exact ⟨idx, seg, hidx, hseg, h.symm⟩
  · rintro ⟨idx, seg, hidx, hseg, h⟩
    exact ⟨idx, hidx, seg, hseg, h.symm⟩

lemma advanceAux_le {start : ℚ} :
    ∀ (l : List AWSSegment) (idx r : Nat), advanceAux start l idx = some r → idx ≤ r := by
  intro l
  induction l with
  | nil => intro idx r h; simp [advanceAux] at h
  | cons seg rest ih =>
    intro idx r h
    simp only [advanceAux] at h
    split at h
    · cases h
    · split at h
      · exact Nat.le_of_succ_le (ih (idx + 1) r h)
      · cases h
        exact Nat.le_refl idx

lemma advanceAux_spec {start : ℚ} :
    ∀ (l : List AWSSegment) (idx r : Nat), advanceAux start l idx = some r →
      (∀ j, idx ≤ j → j < r →
        ∃ seg e, l[j - idx]? = some seg ∧ seg.end_time = some e ∧ e < start) ∧
      (∃ seg e, l[r - idx]? = some seg ∧ seg.end_time = some e ∧ ¬ e < start) := by
  intro l
  induction l with
  | nil => intro idx r h; simp [advanceAux] at h
  | cons seg rest ih =>
    intro idx r h
    simp only [advanceAux] at h
    split at h
    · cases h
    · rename_i e he
      split at h
      case isTrue hlt =>
        have hle := advanceAux_le rest (idx + 1) r h
        obtain ⟨h1, h2⟩ := ih (idx + 1) r h
        constructor
        · intro j hij hjr
          rcases Nat.eq_or_lt_of_le hij with hj | hj
          · refine ⟨seg, e, ?_, he, hlt⟩
            rw [← hj]
            simp
          · obtain ⟨seg2, e2, hg, he2, hlt2⟩ := h1 j hj hjr
            refine ⟨seg2, e2, ?_, he2, hlt2⟩
            rw [show j - idx = (j - (idx + 1)) + 1 by omega]
            simpa using hg
        · obtain ⟨seg2, e2, hg, he2, hnlt⟩ := h2
          refine ⟨seg2, e2, ?_, he2, hnlt⟩
          rw [show r - idx = (r - (idx + 1)) + 1 by omega]
          simpa using hg
      case isFalse hlt =>
        cases h
        constructor
        · intro j hij hjr; omega
        · refine ⟨seg, e, ?_, he, hlt⟩
          simp

lemma advanceCursor_spec {segments : List AWSSegment} {start : ℚ} {idx r : Nat}
    (h : advanceCursor segments start idx = some r) :
    idx ≤ r ∧
    (∀ j, idx ≤ j → j < r →
      ∃ seg e, segments[j]? = some seg ∧ seg.end_time = some e ∧ e < start) ∧
    (∃ seg e, segments[r]? = some seg ∧ seg.end_time = some e ∧ ¬ e < start) := by
  have hle := advanceAux_le (segments.drop idx) idx r h
  obtain ⟨h1, h2⟩ := advanceAux_spec (segments.drop idx) idx r h
  refine ⟨hle, ?_, ?_⟩
  · intro j hij hjr
    obtain ⟨seg, e, hg, he, hlt⟩ := h1 j hij hjr
    rw [List.getElem?_drop, show idx + (j - idx) = j by omega] at hg
    exact ⟨seg, e, hg, he, hlt⟩
  · obtain ⟨seg, e, hg, he, hnlt⟩ := h2
    rw [List.getElem?_drop, show idx + (r - idx) = r by omega] at hg
    exact ⟨seg, e, hg, he, hnlt⟩

lemma advanceAux_eq_none {start : ℚ} :
    ∀ (l : List AWSSegment) (idx : Nat),
      (∀ seg ∈ l, ∀ e, seg.end_time = some e → e < start) →
      advanceAux start l idx = none := by
  intro l
  induction l with
  | nil => intro idx _; rfl
  | cons seg rest ih =>
    intro idx hall
    simp only [advanceAux]
    split
    · rfl
    · rename_i e he
      rw [if_pos (hall seg (by simp) e he)]
      exact ih (idx + 1) fun s hs e2 he2 => hall s (by simp [hs]) e2 he2

lemma iadd_fields {t : Transcript} {tok : AWSTranscriptItem} {t' : Transcript}
    (h : t.iadd tok = some t') :
    t'.segments = t.segments ∧ t'.timestamp_every = t.timestamp_every ∧
      t'.n_speakers = t.n_speakers := by
  obtain ⟨idx, seg, _, _, rfl⟩ := iadd_eq_some_iff.mp h
  exact ⟨rfl, rfl, rfl⟩

lemma tokenCursor_le {t : Transcript} {tok : AWSTranscriptItem} {idx : Nat}
    (h : tokenCursor t tok = some idx) : t.segment_index ≤ idx := by
  unfold tokenCursor at h
  by_cases hp : tok.type = "punctuation"
  · rw [if_pos hp] at h
    cases h
    exact Nat.le_refl _
  · rw [if_neg hp] at h
    cases hst : tok.start_time with
    | none => rw [hst] at h; cases h
    | some s =>
      rw [hst] at h
      exact (advanceCursor_spec h).1

lemma iadd_cursor_le {t : Transcript} {tok : AWSTranscriptItem} {t' : Transcript}
    (h : t.iadd tok = some t') : t.segment_index ≤ t'.segment_index := by
  obtain ⟨idx, seg, hc, _, rfl⟩ := iadd_eq_some_iff.mp h
  exact tokenCursor_le hc

lemma addAll_cons {t : Transcript} {tok : AWSTranscriptItem} {toks : List AWSTranscriptItem} :
    t.addAll (tok :: toks) = (t.iadd tok).bind fun t1 => t1.addAll toks := by
  rcases h : t.iadd tok with _ | t1 <;>
    simp [Transcript.addAll, List.foldlM, h, bind]

lemma addAll_cursor_le :
    ∀ (toks : List AWSTranscriptItem) (t t' : Transcript),
      t.addAll toks = some t' → t.segment_index ≤ t'.segment_index := by
  intro toks
  induction toks with
  | nil =>
    intro t t' h
    cases h
    exact Nat.le_refl _
  | cons tok rest ih =>
    intro t t' h
    rw [addAll_cons] at h
    obtain ⟨t1, h1, h2⟩ := Option.bind_eq_some.mp h
    exact Nat.le_trans (iadd_cursor_le h1) (ih t1 t' h2)

lemma addAll_segments :
    ∀ (toks : List AWSTranscriptItem) (t t' : Transcript),
      t.addAll toks = some t' → t'.segments = t.segments := by
  intro toks
  induction toks with
  | nil =>
    intro t t' h
    cases h
    rfl
  | cons tok rest ih =>
    intro t t' h
    rw [addAll_cons] at h
    obtain ⟨t1, h1, h2⟩ := Option.bind_eq_some.mp h
    rw [ih t1 t' h2, (iadd_fields h1).1]

lemma ibs_foldl_flatten :
    ∀ (items : List TranscriptItem)
      (st : List (List TranscriptItem) × List TranscriptItem × Option String),
      ((items.foldl ibsStep st).1 ++ [(items.foldl ibsStep st).2.1]).flatten
        = (st.1 ++ [st.2.1]).flatten ++ items := by
  intro items
  induction items with
  | nil => intro st; simp
  | cons item rest ih =>
    intro st
    obtain ⟨bys, cur, cs⟩ := st
    rw [List.foldl_cons]
    cases item with
    | timestamp d =>
      rw [show ibsStep (bys, cur, cs) (.timestamp d) = (bys, cur ++ [.timestamp d], cs) from rfl]
      rw [ih]
      simp
    | textItem txt sp si =>
      have hstep : ibsStep (bys, cur, cs) (TranscriptItem.textItem txt sp si)
          = if (if cs = none then some sp else cs) ≠ some sp
            then (bys ++ [cur], [TranscriptItem.textItem txt sp si], some sp)
            else (bys, cur ++ [TranscriptItem.textItem txt sp si],
                  if cs = none then some sp else cs) := rfl
      rw [hstep]
      by_cases hb : (if cs = none then some sp else cs) ≠ some sp
      · rw [if_pos hb, ih]
        simp
      · rw [if_neg hb, ih]
        simp

lemma addAll_append (t : Transcript) (l1 l2 : List AWSTranscriptItem) :
    t.addAll (l1 ++ l2) = (t.addAll l1).bind fun t1 => t1.addAll l2 := by
  simp only [Transcript.addAll, List.foldlM_append]
  rfl

set_option maxRecDepth 40000 in
lemma bigChunk1 : bigT0.addAll (bigJson.items.take 24) = some (bigTAfter 24 60) := by decide

set_option maxRecDepth 40000 in
lemma bigChunk2 :
    (bigTAfter 24 60).addAll ((bigJson.items.drop 24).take 24) = some (bigTAfter 48 120) := by
  decide

set_option maxRecDepth 40000 in
lemma bigChunk3 :
    (bigTAfter 48 120).addAll ((bigJson.items.drop 48).take 24) = some (bigTAfter 72 180) := by
  decide

set_option maxRecDepth 40000 in
lemma bigChunk4 :
    (bigTAfter 72 180).addAll (bigJson.items.drop 72) = some (bigTAfter 96 240) := by
  decide

set_option maxRecDepth 40000 in
lemma bigItemsSplit :
    bigJson.items
      = bigJson.items.take 24 ++ ((bigJson.items.drop 24).take 24
        ++ ((bigJson.items.drop 48).take 24 ++ bigJson.items.drop 72)) := by
  decide

lemma addAll_chain {t t1 t2 : Transcript} {l1 l2 : List AWSTranscriptItem}
    (h1 : t.addAll l1 = some t1) (h2 : t1.addAll l2 = some t2) :
    t.addAll (l1 ++ l2) = some t2 := by
  rw [addAll_append, h1]
  exact h2

lemma bigBuild : Transcript.from_aws_transcribe_json bigJson = some (bigTAfter 96 240) := by
  rw [show Transcript.from_aws_transcribe_json bigJson = bigT0.addAll bigJson.items from rfl,
    bigItemsSplit]
  exact addAll_chain bigChunk1 (addAll_chain bigChunk2 (addAll_chain bigChunk3 bigChunk4))

lemma fromAwsCheckedJson_pos {j : AWSJson} {t : Transcript} (s : FormattingSettings)
    (hs : j.speakers ≠ 0) (hb : Transcript.from_aws_transcribe_json j = some t) :
    fromAwsCheckedJson j s = .ok (t, s) := by
  unfold fromAwsCheckedJson
  rw [if_neg hs, hb]

lemma bigChecked : fromAwsCheckedJson bigJson {} = .ok (bigTAfter 96 240, {}) :=
  fromAwsCheckedJson_pos {} (by decide) bigBuild

lemma bigCheckedCollapse :
    fromAwsCheckedJson bigJson { break_speakers := false }
      = .ok (bigTAfter 96 240, { break_speakers := false }) :=
  fromAwsCheckedJson_pos { break_speakers := false } (by decide) bigBuild

set_option maxRecDepth 40000 in
lemma bigGroups : (itemsBySpeakerWith {} (bigTAfter 96 240)).length > 95 := by decide

lemma items_by_speaker_eq (t : Transcript) :
    t.items_by_speaker
      = (t.items.foldl ibsStep ([], [], none)).1
          ++ [(t.items.foldl ibsStep ([], [], none)).2.1] := by
  unfold Transcript.items_by_speaker
  rcases t.items.foldl ibsStep ([], [], none) with ⟨bys, cur, cs⟩
  rfl

/-! Claim theorems. -/

/-- Claim C10: on a transcript whose item list is empty, items_by_speaker
returns exactly one group, the empty group; consequently to_string and
to_block fail (the source raises IndexError indexing the empty list of
TextItems of that group, modelled by a none result) instead of returning an
empty rendering. -/
theorem claim_C10 (t : Transcript) (h : t.items = []) :
    t.items_by_speaker = [[]] ∧ t.to_string = none ∧ ∀ title, t.to_block title = none := by
  have hibs : t.items_by_speaker = [[]] := by
    rw [items_by_speaker_eq, h]
    rfl
  refine ⟨hibs, ?_, ?_⟩
  · unfold Transcript.to_string
    rw [hibs]
    rfl
  · intro title
    unfold Transcript.to_block
    rw [hibs]
    rfl

/-- Witness for C10 at the freshly constructed empty transcript. -/
theorem claim_C10_witness :
    Transcript.items_by_speaker {} = [[]] ∧ Transcript.to_string {} = none ∧
      ∀ title, Transcript.to_block {} title = none :=
  claim_C10 {} rfl

/-- Claim C9: items_by_speaker is pure and deterministic; in this embedding
every function is mutation-free, and the content of the claim is that the
grouping depends on nothing but the item list: transcripts agreeing on items
(whatever their segments, cursor, thresholds or speaker counts) group
identically, so repeated calls on a finished transcript yield identical
output. -/
theorem claim_C9 (t1 t2 : Transcript) (h : t1.items = t2.items) :
    t1.items_by_speaker = t2.items_by_speaker := by
  rw [items_by_speaker_eq, items_by_speaker_eq, h]

/-- Witness for C9: two transcripts with the same items and different other
fields. -/
theorem claim_C9_witness :
    Transcript.items_by_speaker { items := [.textItem "hi" "S0" 0] }
      = Transcript.items_by_speaker
          { items := [.textItem "hi" "S0" 0], n_speakers := 5, segment_index := 3 } :=
  claim_C9 { items := [.textItem "hi" "S0" 0] }
    { items := [.textItem "hi" "S0" 0], n_speakers := 5, segment_index := 3 } rfl

/-- Claim C5: items_by_speaker partitions the item list in order into
contiguous groups (their concatenation is the item list), and on the spec
example of a TextRun of speaker S0, a TimestampMarker, another S0 TextRun
and an S1 TextRun it yields exactly the two groups of the claim: the
timestamp attaches to the open S0 group and only the S1 run opens a new
group. -/
theorem claim_C5 :
    (∀ t : Transcript, t.items_by_speaker.flatten = t.items) ∧
    (∀ t : Transcript,
      t.items = [TranscriptItem.textItem "hi" "S0" 0, TranscriptItem.timestamp 65,
                 TranscriptItem.textItem "there" "S0" 0, TranscriptItem.textItem "yo" "S1" 1] →
      t.items_by_speaker
        = [[TranscriptItem.textItem "hi" "S0" 0, TranscriptItem.timestamp 65,
            TranscriptItem.textItem "there" "S0" 0],
           [TranscriptItem.textItem "yo" "S1" 1]]) := by
  constructor
  · intro t
    rw [items_by_speaker_eq]
    have := ibs_foldl_flatten t.items ([], [], none)
    simpa using this
  · intro t h
    rw [items_by_speaker_eq, h]
    rfl

/-- Witness for C5 on the spec example items. -/
theorem claim_C5_witness :
    Transcript.items_by_speaker
        { items := [TranscriptItem.textItem "hi" "S0" 0, TranscriptItem.timestamp 65,
                    TranscriptItem.textItem "there" "S0" 0, TranscriptItem.textItem "yo" "S1" 1] }
      = [[TranscriptItem.textItem "hi" "S0" 0, TranscriptItem.timestamp 65,
          TranscriptItem.textItem "there" "S0" 0],
         [TranscriptItem.textItem "yo" "S1" 1]] :=
  claim_C5.2 _ rfl

/-- Claim C2: during append the incoming token is merged into the most
recently appended item exactly when that item is a TextRun whose speaker and
segment index equal the token's effective ones (an item list ending in a
timestamp, or an empty list, always starts a new run seeded with the token's
text, effective speaker and effective segment index); merging concatenates a
punctuation token with no preceding space and a word token with exactly one
space, so hello then punctuation dot gives hello. and hello then word world
gives hello world; and every successful iadd produces its items through
exactly this merge-or-append step at the segment attributed to the token. -/
theorem claim_C2 :
    (∀ (rest : List TranscriptItem) (txt sp0 : String) (si0 : Nat)
        (tok : AWSTranscriptItem) (sp : String) (si : Nat),
      appendTokenItems (rest ++ [TranscriptItem.textItem txt sp0 si0]) tok sp si
        = if sp0 = sp ∧ si0 = si
          then rest ++ [TranscriptItem.textItem
                (txt ++ (if tok.type ≠ "punctuation" then " " else "") ++ tok.content) sp0 si0]
          else (rest ++ [TranscriptItem.textItem txt sp0 si0])
                ++ [TranscriptItem.textItem tok.content sp si]) ∧
    (∀ (rest : List TranscriptItem) (d : Int) (tok : AWSTranscriptItem) (sp : String) (si : Nat),
      appendTokenItems (rest ++ [TranscriptItem.timestamp d]) tok sp si
        = (rest ++ [TranscriptItem.timestamp d]) ++ [TranscriptItem.textItem tok.content sp si]) ∧
    (∀ (tok : AWSTranscriptItem) (sp : String) (si : Nat),
      appendTokenItems [] tok sp si = [TranscriptItem.textItem tok.content sp si]) ∧
    (∀ (t : Transcript) (tok : AWSTranscriptItem) (t' : Transcript), t.iadd tok = some t' →
      ∃ seg, t.segments[t'.segment_index]? = some seg ∧
        t'.items = appendTokenItems (timestampStep t tok).1 tok seg.speaker_label seg.index) ∧
    appendTokenItems [TranscriptItem.textItem "hello" "S0" 0] (punctTok ".") "S0" 0
      = [TranscriptItem.textItem "hello." "S0" 0] ∧
    appendTokenItems [TranscriptItem.textItem "hello" "S0" 0] (wordTok 1 "world") "S0" 0
      = [TranscriptItem.textItem "hello world" "S0" 0] := by
  refine ⟨?_, ?_, ?_, ?_, by decide, by decide⟩
  · intro rest txt sp0 si0 tok sp si
    unfold appendTokenItems
    rw [List.getLast?_concat]
    by_cases h : sp0 = sp ∧ si0 = si
    · rw [if_pos h]
      have hacc : (TranscriptItem.textItem txt sp0 si0).accepts sp si = true := by
        simp [TranscriptItem.accepts, h.1, h.2]
      simp [hacc, TranscriptItem.mergeToken, List.dropLast_concat]
    · rw [if_neg h]
      have hacc : (TranscriptItem.textItem txt sp0 si0).accepts sp si = false := by
        simp only [TranscriptItem.accepts, Bool.and_eq_false_iff, beq_eq_false_iff_ne, ne_eq]
        rcases Decidable.not_and_iff_or_not.mp h with h1 | h1
        · exact Or.inl h1
        · exact Or.inr h1
      simp [hacc, newRun]
  · intro rest d tok sp si
    unfold appendTokenItems
    rw [List.getLast?_concat]
    simp [TranscriptItem.accepts, newRun]
  · intro tok sp si
    rfl
  · intro t tok t' h
    obtain ⟨idx, seg, hc, hsome, rfl⟩ := iadd_eq_some_iff.mp h
    exact ⟨seg, hsome, rfl⟩

/-- Witness for C2: the append step of a word token at ten seconds on the
one-segment scene produces its items through the merge-or-append step. -/
theorem claim_C2_witness :
    ∃ seg, tScene.segments[(tSceneOne).segment_index]? = some seg ∧
      (tSceneOne).items
        = appendTokenItems (timestampStep tScene (wordTok 10 "a")).1 (wordTok 10 "a")
            seg.speaker_label seg.index :=
  claim_C2.2.2.2.1 tScene (wordTok 10 "a") tSceneOne (by decide)

/-- Claim C8: a non-punctuation token whose start time lies strictly past
the end time of every segment makes the append raise (the cursor runs off
the end of the segment list), and any build whose token stream contains such
a token aborts with an error instead of silently dropping the token or
producing a transcript from the remaining tokens. -/
theorem claim_C8 (t : Transcript) (tok : AWSTranscriptItem) (s : ℚ)
    (toks1 toks2 : List AWSTranscriptItem)
    (hty : tok.type ≠ "punctuation") (hst : tok.start_time = some s)
    (hall : ∀ seg ∈ t.segments, ∀ e, seg.end_time = some e → e < s) :
    t.iadd tok = none ∧ t.addAll (toks1 ++ tok :: toks2) = none := by
  have hiadd : ∀ t' : Transcript, t'.segments = t.segments → t'.iadd tok = none := by
    intro t' hseg
    have hcur : tokenCursor t' tok = none := by
      unfold tokenCursor
      rw [if_neg hty, hst]
      show advanceCursor t'.segments s t'.segment_index = none
      unfold advanceCursor
      refine advanceAux_eq_none _ _ ?_
      intro seg hmem e he
      refine hall seg ?_ e he
      rw [← hseg]
      exact List.drop_subset _ _ hmem
    unfold Transcript.iadd
    rw [hcur]
    rfl
  refine ⟨hiadd t rfl, ?_⟩
  rw [addAll_append]
  rcases h1 : t.addAll toks1 with _ | t1
  · rfl
  · show t1.addAll (tok :: toks2) = none
    rw [addAll_cons, hiadd t1 (addAll_segments toks1 t t1 h1)]
    rfl

/-- Witness for C8: a word token at two hundred seconds on the one-segment
scene whose only segment ends at one hundred seconds. -/
theorem claim_C8_witness :
    tScene.iadd (wordTok 200 "x") = none ∧
      tScene.addAll ([wordTok 10 "a"] ++ wordTok 200 "x" :: [wordTok 300 "y"]) = none :=
  claim_C8 tScene (wordTok 200 "x") 200 [wordTok 10 "a"] [wordTok 300 "y"]
    (by decide) rfl
    (by
      intro seg hseg e he
      simp only [tScene, List.mem_singleton] at hseg
      subst hseg
      simp at he
      subst he
      norm_num)

/-- Claim C1: a successful append attributes the token to exactly one
segment, the one at the final cursor; the cursor never moves backward in one
append and never decreases over a whole build; a punctuation token leaves
the cursor unchanged (inheriting the active segment); and the cursor is
advanced only over segments whose end time is strictly less than the
token's start time. -/
theorem claim_C1 :
    (∀ (t : Transcript) (tok : AWSTranscriptItem) (t' : Transcript),
      t.iadd tok = some t' →
        t.segment_index ≤ t'.segment_index ∧
        (tok.type = "punctuation" → t'.segment_index = t.segment_index) ∧
        (∀ j, t.segment_index ≤ j → j < t'.segment_index →
          ∃ seg e s, t.segments[j]? = some seg ∧ seg.end_time = some e ∧
            tok.start_time = some s ∧ e < s) ∧
        ∃ seg, t.segments[t'.segment_index]? = some seg) ∧
    (∀ (t : Transcript) (toks : List AWSTranscriptItem) (t' : Transcript),
      t.addAll toks = some t' → t.segment_index ≤ t'.segment_index) := by
  constructor
  · intro t tok t' h
    obtain ⟨idx, seg, hc, hsome, ht'⟩ := iadd_eq_some_iff.mp h
    have hidx : t'.segment_index = idx := by rw [ht']
    rw [hidx]
    refine ⟨tokenCursor_le hc, ?_, ?_, seg, hsome⟩
    · intro hp
      unfold tokenCursor at hc
      rw [if_pos hp] at hc
      cases hc
      rfl
    · intro j h1 h2
      unfold tokenCursor at hc
      by_cases hp : tok.type = "punctuation"
      · rw [if_pos hp] at hc
        cases hc
        omega
      · rw [if_neg hp] at hc
        rcases hst : tok.start_time with _ | s
        · rw [hst] at hc
          cases hc
        · rw [hst] at hc
          obtain ⟨seg2, e, hg, he, hlt⟩ := (advanceCursor_spec hc).2.1 j h1 h2
          exact ⟨seg2, e, s, hg, he, rfl, hlt⟩
  · exact fun t toks t' h => addAll_cursor_le toks t t' h

/-- Witness for C1: a word token at ten seconds advances the cursor of the
two-segment scene from zero to one, and the spec example build never
decreases the cursor. -/
theorem claim_C1_witness :
    (tTwoSeg.segment_index ≤ tTwoSegResult.segment_index ∧
      ((wordTok 10 "w").type = "punctuation" →
        tTwoSegResult.segment_index = tTwoSeg.segment_index) ∧
      (∀ j, tTwoSeg.segment_index ≤ j → j < tTwoSegResult.segment_index →
        ∃ seg e s, tTwoSeg.segments[j]? = some seg ∧ seg.end_time = some e ∧
          (wordTok 10 "w").start_time = some s ∧ e < s) ∧
      ∃ seg, tTwoSeg.segments[tTwoSegResult.segment_index]? = some seg) ∧
    tScene.segment_index ≤ tSceneResult.segment_index :=
  ⟨claim_C1.1 tTwoSeg (wordTok 10 "w") tTwoSegResult (by decide),
   claim_C1.2 tScene tokensScene tSceneResult (by decide)⟩

/-- Claim C3: when a token carries a start time strictly past the current
timestamp threshold (with the threshold nonnegative, so the truthiness guard
on the start time is automatic), the append first emits a TimestampMarker
holding the whole-second-floored elapsed time and bumps the threshold by one
interval, and only then merges or appends the token text after the marker;
on the spec example with interval sixty and start times ten, thirty,
sixty-five and seventy, exactly one marker appears, immediately before the
run holding the token at sixty-five, rendering as elapsed time 0:01:05. -/
theorem claim_C3 :
    (∀ (t : Transcript) (tok : AWSTranscriptItem) (s : ℚ) (t' : Transcript),
      tok.start_time = some s → (t.next_timestamp : ℚ) < s → 0 ≤ t.next_timestamp →
      t.iadd tok = some t' →
        t'.next_timestamp = t.next_timestamp + t.timestamp_every ∧
        ∃ seg, t.segments[t'.segment_index]? = some seg ∧
          t'.items = appendTokenItems (t.items ++ [TranscriptItem.timestamp ⌊s⌋]) tok
            seg.speaker_label seg.index) ∧
    (tScene.addAll tokensScene = some tSceneResult ∧
      tSceneResult.items
        = [TranscriptItem.textItem "a b" "S0" 0, TranscriptItem.timestamp 65,
           TranscriptItem.textItem "c d" "S0" 0] ∧
      tSceneResult.next_timestamp = 120 ∧
      (TranscriptItem.timestamp 65).toStr = "[0:01:05]") := by
  constructor
  · intro t tok s t' hst hlt h0 h
    have hs0 : s ≠ 0 := by
      have : (0 : ℚ) < s := lt_of_le_of_lt (by exact_mod_cast h0) hlt
      exact ne_of_gt this
    have htss : timestampStep t tok
        = (t.items ++ [TranscriptItem.timestamp ⌊s⌋], t.next_timestamp + t.timestamp_every) := by
      simp only [timestampStep, hst]
      rw [if_pos ⟨hs0, hlt⟩]
      rfl
    obtain ⟨idx, seg, hc, hsome, rfl⟩ := iadd_eq_some_iff.mp h
    rw [htss]
    exact ⟨rfl, seg, hsome, rfl⟩
  · exact ⟨by decide, rfl, rfl, rfl⟩

/-- Witness for C3: the token at sixty-five seconds crossing the sixty
second threshold in the middle of the spec example build. -/
theorem claim_C3_witness :
    tMid65Result.next_timestamp = tMid65.next_timestamp + tMid65.timestamp_every ∧
      ∃ seg, tMid65.segments[tMid65Result.segment_index]? = some seg ∧
        tMid65Result.items
          = appendTokenItems (tMid65.items ++ [TranscriptItem.timestamp ⌊(65 : ℚ)⌋])
              (wordTok 65 "c") seg.speaker_label seg.index :=
  claim_C3.1 tMid65 (wordTok 65 "c") 65 tMid65Result rfl (by decide) (by decide) (by decide)

/-- Claim C4: recognition input with zero detected speakers makes the build
and render signal the distinguished no-speech condition (the
NoSpeakersException constructor, not an index error), and VoiceNote's
add_to_notion reacts by marking the note Evicted, ineligible for document
insertion, appending nothing. -/
theorem claim_C4 (raw : AWSJson) (title : RichText) (h0 : raw.speakers = 0) :
    fromAwsCheckedJson raw {} = .error .noSpeakers ∧
    voiceNoteToBlock raw title = .error .noSpeakers ∧
    addToNotionOutcome raw title = some (.Evicted, false) := by
  have h1 : fromAwsCheckedJson raw {} = .error .noSpeakers := by
    unfold fromAwsCheckedJson
    rw [if_pos h0]
  have h2 : voiceNoteToBlock raw title = .error .noSpeakers := by
    unfold voiceNoteToBlock
    rw [h1]
  refine ⟨h1, h2, ?_⟩
  unfold addToNotionOutcome
  rw [h2]

/-- Witness for C4: the zero-speaker, zero-segment recognition payload. -/
theorem claim_C4_witness :
    fromAwsCheckedJson { speakers := 0, segments := [], items := [] } {}
        = .error .noSpeakers ∧
      voiceNoteToBlock { speakers := 0, segments := [], items := [] }
          (RichText.plainText "note") = .error .noSpeakers ∧
      addToNotionOutcome { speakers := 0, segments := [], items := [] }
          (RichText.plainText "note") = some (.Evicted, false) :=
  claim_C4 { speakers := 0, segments := [], items := [] } (RichText.plainText "note") rfl

/-- Claim C6: when the default build produces more than ninety-five speaker
groups, VoiceNote.to_block renders the result of re-running the builder on
the raw recognition JSON with break_speakers disabled (not a mutation of the
already-built transcript), and any transcript the rebuild returns is grouped
as one single undifferentiated group under those settings. -/
theorem claim_C6 (raw : AWSJson) (title : RichText) (t : Transcript)
    (s1 : FormattingSettings)
    (hok : fromAwsCheckedJson raw {} = .ok (t, s1))
    (hbig : (itemsBySpeakerWith s1 t).length > 95) :
    (∀ t2 s2, fromAwsCheckedJson raw { break_speakers := false } = .ok (t2, s2) →
      s2 = { break_speakers := false } ∧ itemsBySpeakerWith s2 t2 = [t2.items]) ∧
    voiceNoteToBlock raw title
      = match fromAwsCheckedJson raw { break_speakers := false } with
        | .error e => .error e
        | .ok (t2, s2) => orIndexError (t2.to_block_with s2 title) := by
  constructor
  · intro t2 s2 hok2
    unfold fromAwsCheckedJson at hok2
    by_cases hsp : raw.speakers = 0
    · rw [if_pos hsp] at hok2
      cases hok2
    · rw [if_neg hsp] at hok2
      rcases hb : Transcript.from_aws_transcribe_json raw with _ | tt
      · rw [hb] at hok2
        cases hok2
      · rw [hb] at hok2
        have h1 : tt = t2 ∧ ({ break_speakers := false } : FormattingSettings) = s2 := by
          cases hok2
          exact ⟨rfl, rfl⟩
        obtain ⟨rfl, hs2⟩ := h1
        subst hs2
        exact ⟨rfl, rfl⟩
  · unfold voiceNoteToBlock
    rw [hok]
    show ((match (if (itemsBySpeakerWith s1 t).length > 95 then
        fromAwsCheckedJson raw { break_speakers := false }
      else Except.ok (t, s1)) with
      | Except.error e => Except.error e
      | Except.ok (t2, s2) => orIndexError (t2.to_block_with s2 title)) :
        Except TranscriptError Block) = _
    rw [if_pos hbig]

/-- Witness for C6: the alternating-speaker payload with ninety-six speaker
groups triggers the collapse rebuild. -/
theorem claim_C6_witness :
    voiceNoteToBlock bigJson (RichText.plainText "note")
      = match fromAwsCheckedJson bigJson { break_speakers := false } with
        | .error e => .error e
        | .ok (t2, s2) => orIndexError (t2.to_block_with s2 (RichText.plainText "note")) :=
  (claim_C6 bigJson (RichText.plainText "note") (bigTAfter 96 240) {} bigChecked bigGroups).2

/-! Helper lemmas for the rendering round-trip. -/

lemma visibleChars_append (a b : String) :
    visibleChars (a ++ b) = visibleChars a ++ visibleChars b := by
  simp [visibleChars, String.data_append, List.filter_append]

lemma vis_space : visibleChars " " = [] := rfl

lemma vis_joinStrings_cons (s : String) (l : List String) :
    visibleChars (joinStrings (s :: l)) = visibleChars s ++ visibleChars (joinStrings l) := by
  show visibleChars (s ++ joinStrings l) = _
  exact visibleChars_append ..

lemma visibleChars_joinLines :
    ∀ l : List String, visibleChars (joinLines l) = visibleChars (joinStrings l)
  | [] => rfl
  | [s] => by
    show visibleChars s = visibleChars (s ++ "")
    rw [visibleChars_append, show visibleChars "" = [] from rfl, List.append_nil]
  | s :: t :: r => by
    show visibleChars (s ++ "\n" ++ joinLines (t :: r)) = visibleChars (s ++ joinStrings (t :: r))
    rw [visibleChars_append, visibleChars_append, visibleChars_append,
      visibleChars_joinLines (t :: r), show visibleChars "\n" = [] from rfl, List.append_nil]

lemma toRichText_text (i : TranscriptItem) : (i.toRichText).text = i.toStr := by
  cases i <;> rfl

lemma vis_group_items :
    ∀ g : List TranscriptItem,
      visibleChars (joinStrings
          (((g.map fun x => [x.toRichText, RichText.plainText " "]).flatten).map RichText.text))
        = visibleChars (joinStrings (g.map TranscriptItem.toStr)) := by
  intro g
  induction g with
  | nil => rfl
  | cons x g ih =>
    have hstep :
        ((((x :: g).map fun x => [x.toRichText, RichText.plainText " "]).flatten).map
            RichText.text)
          = x.toRichText.text :: " "
              :: (((g.map fun x => [x.toRichText, RichText.plainText " "]).flatten).map
                  RichText.text) := rfl
    rw [hstep, vis_joinStrings_cons, vis_joinStrings_cons, toRichText_text, vis_space,
      List.nil_append,
      show (x :: g).map TranscriptItem.toStr = x.toStr :: g.map TranscriptItem.toStr from rfl,
      vis_joinStrings_cons, ih]

lemma leafText_blockOf (sp : String) (g : List TranscriptItem) :
    visibleChars (Block.leafText (Block.paragraph (groupRichTexts sp g) []))
      = visibleChars (sp ++ ": " ++ joinStrings (g.map TranscriptItem.toStr)) := by
  show visibleChars (joinStrings ((groupRichTexts sp g).map RichText.text) ++ "") = _
  rw [visibleChars_append]
  unfold groupRichTexts
  simp only [List.map_append, List.map_cons, List.map_nil, List.cons_append, List.nil_append]
  rw [vis_joinStrings_cons, vis_joinStrings_cons, vis_group_items]
  rw [visibleChars_append, visibleChars_append]
  show (visibleChars sp ++ (visibleChars ": " ++ _)) ++ visibleChars "" = _
  simp [List.append_assoc]
  rfl

lemma vis_mapM :
    ∀ (groups : List (List TranscriptItem)) (lines : List String) (children : List Block),
      groups.mapM lineOf = some lines →
      groups.mapM blockOf = some children →
      visibleChars (joinStrings lines) = visibleChars (Block.leafTextOfList children) := by
  intro groups
  induction groups with
  | nil =>
    intro lines children h1 h2
    cases h1
    cases h2
    rfl
  | cons g gs ih =>
    intro lines children h1 h2
    rw [List.mapM_cons] at h1 h2
    simp only [bind, Option.bind_eq_some, pure, Option.some.injEq] at h1 h2
    obtain ⟨line, hline, rest, hrest, hlines⟩ := h1
    obtain ⟨blk, hblk, brest, hbrest, hchildren⟩ := h2
    subst hlines
    subst hchildren
    simp only [lineOf, bind, Option.bind_eq_some, pure, Option.some.injEq] at hline
    obtain ⟨sp, hsp, hline2⟩ := hline
    simp only [blockOf, bind, Option.bind_eq_some, pure, Option.some.injEq] at hblk
    obtain ⟨sp2, hsp2, hblk2⟩ := hblk
    rw [hsp] at hsp2
    cases hsp2
    subst hline2
    subst hblk2
    rw [vis_joinStrings_cons, ih rest brest hrest hbrest]
    conv_rhs =>
      rw [show Block.leafTextOfList (Block.paragraph (groupRichTexts sp g) [] :: brest)
            = Block.leafText (Block.paragraph (groupRichTexts sp g) [])
              ++ Block.leafTextOfList brest from rfl,
        visibleChars_append, leafText_blockOf]

/-- Claim C7: for every built transcript, the visible leaf text extracted in
order from the children of the block tree produced by to_block agrees, after
space normalization (comparing the character sequences with spaces and
newlines removed), with the speaker-ordered text of to_string. -/
theorem claim_C7 (t : Transcript) (title : RichText) (s : String) (b : Block)
    (hs : t.to_string = some s) (hb : t.to_block title = some b) :
    visibleChars (Block.leafTextOfList b.childrenOf) = visibleChars s := by
  simp only [Transcript.to_string, bind, Option.bind_eq_some, pure, Option.some.injEq] at hs
  obtain ⟨lines, hlines, hs2⟩ := hs
  simp only [Transcript.to_block, bind, Option.bind_eq_some, pure, Option.some.injEq] at hb
  obtain ⟨children, hchildren, hb2⟩ := hb
  subst hs2
  subst hb2
  rw [show (Block.paragraph [title] children).childrenOf = children from rfl,
    visibleChars_joinLines]
  exact (vis_mapM _ _ _ hlines hchildren).symm

/-- Witness for C7 on the spec example transcript: the block rendering and
the string rendering agree after space normalization. -/
theorem claim_C7_witness :
    visibleChars (Block.leafTextOfList
        (Block.paragraph [RichText.plainText "note"]
          [Block.paragraph [RichText.boldText "S0", RichText.plainText ": ",
            RichText.plainText "a b", RichText.plainText " ",
            RichText.codeText "[0:01:05]", RichText.plainText " ",
            RichText.plainText "c d", RichText.plainText " "] []]).childrenOf)
      = visibleChars "S0: a b[0:01:05]c d" :=
  claim_C7 tSceneResult (RichText.plainText "note") "S0: a b[0:01:05]c d"
    (Block.paragraph [RichText.plainText "note"]
      [Block.paragraph [RichText.boldText "S0", RichText.plainText ": ",
        RichText.plainText "a b", RichText.plainText " ",
        RichText.codeText "[0:01:05]", RichText.plainText " ",
        RichText.plainText "c d", RichText.plainText " "] []])
    (by decide) rfl

end VoiceNotes
